import Mathlib

/-!
Verification of the resilient fetch orchestrator and response-body cache
of `src/index.js` (the `soft-landing` repository).

The development is a shallow embedding of the JavaScript source:

* the replacement `fetch` installed by `intercede` (src/index.js lines
  230-293) is modelled by `runFetch` below, with the underlying transport
  and the host `Request` constructor supplied as an explicit `Behavior`
  (they are external collaborators in the spec's sense);
* the patched `Response` body methods installed by `ResponseMethod`
  (src/index.js lines 313-396) are modelled by `callMethod` / `instSem`
  over an explicit per-response `BodyState`.

JavaScript values are modelled explicitly: thrown values are either error
objects (name, message, own properties) or the null primitive; promises of
the three attempts are identified by tags; property-descriptor flags are
recorded so that enumerability and writability of the provenance
decorations can be stated.

A point of care throughout: several of the cached instance methods in the
source are *named function expressions* whose name shadows the like-named
outer helper (`function text() { return text(...) }` and similar), so the
call in the body is a self-call; likewise the prototype wrapper ends in
`return this[method]()` where `method` resolves to the function itself,
not the outer string parameter.  The embedding models the resulting
behaviour (bounded call stack via an explicit fuel argument, with
JavaScript stack exhaustion raising a RangeError that a surrounding
`try`/`catch` can observe).
-/

namespace SoftLanding

/-! ## Small string utilities (JS primitives used by the source) -/

/-- Character-list prefix test (pattern, text). -/
def startsWithL : List Char → List Char → Bool
  | [], _ => true
  | _ :: _, [] => false
  | p :: ps, t :: ts => p == t && startsWithL ps ts

/-- Substring occurrence test (pattern, text), scanning every position. -/
def containsSub (pat : List Char) : List Char → Bool
  | [] => startsWithL pat []
  | c :: cs => startsWithL pat (c :: cs) || containsSub pat cs

/-- Case-insensitive test for the pattern `cannot have body`, the model of
`/cannot have body/i.test(s)` from src/index.js line 241. -/
def chbStr (s : String) : Bool :=
  containsSub ("cannot have body".toList) (s.toList.map Char.toLower)

/-- Methods that `new Request` byte-uppercases, per the fetch standard. -/
def knownMethods : List String := ["DELETE", "GET", "HEAD", "OPTIONS", "POST", "PUT"]

/-- Method normalization performed by the host `Request` constructor. -/
def normalizeMethod (m : String) : String :=
  let u := String.mk (m.toList.map Char.toUpper)
  if knownMethods.contains u then u else m

/-- Lower-cased character list of a string, for case-insensitive header names. -/
def lcList (s : String) : List Char := s.toList.map Char.toLower

/-- Association-list lookup returning the first value for a key. -/
def lookupD (ps : List (String × String)) (k : String) (dflt : String) : String :=
  match ps.find? (fun p => p.1 == k) with
  | some p => p.2
  | none => dflt

/-! ## JavaScript thrown values -/

/-- An error object: its `name` and `message` (as read by property access,
possibly inherited) and its own enumerable-by-`getOwnPropertyNames`
properties, in insertion order, with string-coerced values. -/
structure JsErrObj where
  name : String
  message : String
  ownProps : List (String × String)
deriving DecidableEq

/-- A JavaScript thrown/rejected value: an error object, or the `null`
primitive (standing for any non-object-coercible throwable). -/
inductive JsThrown where
  | obj (o : JsErrObj)
  | nul
deriving DecidableEq

/-- Model of `Error.prototype.toString`, used by `String(e)`. -/
def errToString (o : JsErrObj) : String :=
  if o.name = "" then o.message
  else if o.message = "" then o.name
  else o.name ++ ": " ++ o.message

/-- Model of `String(e)` for a thrown value. -/
def strOfThrown : JsThrown → String
  | .obj o => errToString o
  | .nul => "null"

/-- The TypeError raised by `Object.getOwnPropertyNames(null)`. -/
def typeErrorNul : JsErrObj :=
  { name := "TypeError"
    message := "Cannot convert undefined or null to object"
    ownProps := [("message", "Cannot convert undefined or null to object")] }

/-- The TypeError raised by `new Request` when a body is attached to a
GET/HEAD request. -/
def ctorBodyError : JsErrObj :=
  { name := "TypeError"
    message := "Request with GET/HEAD method cannot have body."
    ownProps := [("message", "Request with GET/HEAD method cannot have body.")] }

/-- A character the host `Response` constructor accepts in `statusText`:
the fetch-standard reason-phrase production (HTAB, SP, VCHAR or obs-text
after ByteString conversion, which itself rejects code points above
`0xFF`). -/
def validStatusChar (c : Char) : Bool :=
  c.toNat == 9 ||
  (Nat.ble 0x20 c.toNat && Nat.ble c.toNat 0x7E) ||
  (Nat.ble 0x80 c.toNat && Nat.ble c.toNat 0xFF)

/-- Whether `new Response(body, { statusText := s, ... })` accepts `s`;
on failure the constructor throws a TypeError. -/
def validReasonPhrase (s : String) : Bool :=
  s.toList.all validStatusChar

/-- The TypeError raised by the host `Response` constructor when the
synthetic response's `statusText` (the caught error's message) violates
the reason-phrase production. -/
def statusTextError : JsErrObj :=
  { name := "TypeError"
    message := "Invalid statusText"
    ownProps := [("message", "Invalid statusText")] }

/-! ## Requests, responses and the orchestrator's data model -/

/-- The caller-supplied options object (`init`): the fields the
orchestrator reads or mutates.  The object is mutable and shared by
reference with the caller; `runFetch` returns its final state. -/
structure InitObj where
  method : Option String
  headers : List (String × String)
  body : Option String
deriving DecidableEq

/-- The value `new Request(target, options)` evaluates to. -/
structure RequestData where
  url : String
  method : String
  headers : List (String × String)
  body : Option String
deriving DecidableEq

/-- A transport response, as the orchestrator sees it. -/
structure ResponseData where
  status : Nat
  statusText : String
  headers : List (String × String)
  payload : String
deriving DecidableEq

/-- Outcome of one transport call. -/
inductive TransportOutcome where
  | resolve (r : ResponseData)
  | reject (e : JsThrown)
deriving DecidableEq

/-- External behaviour of the host: per-construction injected failures of
the `Request` constructor, and the outcome of each transport call (indexed
by the number of transport calls already made). -/
structure Behavior where
  ctorFail : Nat → Option JsThrown
  transport : Nat → RequestData → TransportOutcome

/-- Promise values the orchestrator's `presponse` variable can hold: the
attempt-1 promise and the attempt-3 promise.  (`p2` exists in the type so
that the theorem `&presponse` is never the attempt-2 promise is a real
statement: src/index.js line 245 does not assign `presponse`.) -/
inductive PromiseRef where
  | p1
  | p2
  | p3
deriving DecidableEq

/-- Property-descriptor flags, as set by `objDoProp` (src/index.js 135). -/
structure PropAttrs where
  enumerable : Bool
  writable : Bool
  configurable : Bool
deriving DecidableEq

/-- Flags produced by `objDefProp`: non-enumerable, writable, configurable. -/
def objDefPropAttrs : PropAttrs :=
  { enumerable := false, writable := true, configurable := true }

/-- A response decorated with the three provenance properties of
src/index.js lines 267-269 / 288-290: `&arguments` (the argument list,
aliasing the possibly-mutated options object), `&request`, `&presponse`,
together with the descriptor flags those definitions used. -/
structure Decorated where
  resp : ResponseData
  argsUrl : String
  argsInit : Option InitObj
  req : Option RequestData
  presp : Option PromiseRef
  attrs : PropAttrs
deriving DecidableEq

/-- Decoration via `objDefProp` (non-enumerable, writable, configurable). -/
def mkDecorated (resp : ResponseData) (url : String) (init : Option InitObj)
    (req : Option RequestData) (presp : Option PromiseRef) : Decorated :=
  { resp := resp, argsUrl := url, argsInit := init, req := req, presp := presp,
    attrs := objDefPropAttrs }

/-- Result of one logical call of the wrapped fetch: the settled value of
the returned promise (`.error` when the wrapped fetch itself rejects), the
final state of the caller's options object, and the trace of transport
calls actually made with their outcomes. -/
structure RunResult where
  result : Except JsThrown Decorated
  finalInit : Option InitObj
  calls : List (RequestData × TransportOutcome)

/-! ## Request construction and header operations -/

/-- The request `new Request(target, options)` builds when it does not
throw: normalized method, the options' headers, the options' body. -/
def mkReq (url : String) (init : Option InitObj) : RequestData :=
  { url := url
    method := normalizeMethod ((init.bind InitObj.method).getD "GET")
    headers := (init.map InitObj.headers).getD []
    body := init.bind InitObj.body }

/-- Body-forbidding methods (after normalization). -/
def bodyForbidden (m : String) : Bool := m == "GET" || m == "HEAD"

/-- Model of `new Request(...arguments)`: an injected host failure if the
behaviour supplies one for this construction, otherwise the deterministic
fetch-standard rule rejecting a body on GET/HEAD, otherwise the built
request. -/
def construct (B : Behavior) (idx : Nat) (url : String) (init : Option InitObj) :
    Except JsThrown RequestData :=
  match B.ctorFail idx with
  | some e => .error e
  | none =>
    let r := mkReq url init
    if bodyForbidden r.method && r.body.isSome then .error (.obj ctorBodyError)
    else .ok r

/-- Model of `request.headers.set(n, v)`: replaces any entry with the same
case-insensitive name, appending the new pair. -/
def setHeader (r : RequestData) (n v : String) : RequestData :=
  { r with headers := r.headers.filter (fun p => !(lcList p.1 == lcList n)) ++ [(n, v)] }

/-- Case-insensitive header lookup. -/
def lookupHeader (hs : List (String × String)) (n : String) : Option String :=
  (hs.find? (fun p => lcList p.1 == lcList n)).map Prod.snd

/-- A header value `headers.set` accepts (no NUL / CR / LF). -/
def validHeaderValue (v : String) : Bool :=
  v.toList.all (fun c => !(c == '\r' || c == '\n' || c == Char.ofNat 0))

/-- Model of lines 256-262: if a (truthy) body was present, try to stash
it into a `body` header; a throwing `set` is caught and only warned. -/
def stashBody (r : RequestData) (b : Option String) : RequestData :=
  match b with
  | none => r
  | some v =>
    if v == "" then r
    else if validHeaderValue v then setHeader r "body" v else r

/-! ## Mutations of the caller's options object -/

/-- Model of `objDefEnum(arguments[1] ?? {}, "method", m)`: when the caller
passed no options object the definition lands on a throwaway `{}` and is
lost; otherwise the caller's object is mutated in place. -/
def mutMethod : Option InitObj → String → Option InitObj
  | none, _ => none
  | some i, m => some { i with method := some m }

/-- Model of `delete arguments[1]?.body`. -/
def mutDeleteBody : Option InitObj → Option InitObj
  | none => none
  | some i => some { i with body := none }

/-! ## Error synthesis (src/index.js lines 276-285) -/

/-- Newline-joined `name: value` lines over the own properties of an error. -/
def joinPropLines (ps : List (String × String)) : String :=
  String.intercalate "\n" (ps.map (fun p => p.1 ++ ": " ++ p.2))

/-- The synthetic response built in the outer catch: status 569, status
text the error's message, `content-type: text/html`, and the joined
own-property lines as body. -/
def synthesize (o : JsErrObj) : ResponseData :=
  { status := 569
    statusText := o.message
    headers := [("content-type", "text/html")]
    payload := joinPropLines o.ownProps }

/-- The outer catch (src/index.js lines 273-286 plus the decoration and
return at 288-292).  Two of its own steps can throw, in which case the
wrapped fetch itself rejects: `Object.getOwnPropertyNames(e)` throws a
TypeError when the caught value is `null`, and the host `Response`
constructor throws a TypeError when the error's message is not a valid
`statusText` reason phrase.  Otherwise the synthetic response is
decorated and returned. -/
def outerCatch (e : JsThrown) (url : String) (curInit : Option InitObj)
    (reqVar : Option RequestData) (prespVar : Option PromiseRef)
    (trace : List (RequestData × TransportOutcome)) : RunResult :=
  match e with
  | .nul =>
    { result := .error (.obj typeErrorNul), finalInit := curInit, calls := trace }
  | .obj o =>
    if validReasonPhrase o.message then
      { result := .ok (mkDecorated (synthesize o) url curInit reqVar prespVar)
        finalInit := curInit, calls := trace }
    else
      { result := .error (.obj statusTextError), finalInit := curInit, calls := trace }

/-- The inner catch (src/index.js lines 239-272): classify the error by the
`cannot have body` pattern; on a match force the options' method to POST,
rebuild and resend recording the original method in a `method` header; on a
405 restore the method, delete the body (best-effort stashing it into a
`body` header) and resend once more; decorate and return the final
response.  Any non-matching or later error falls to the outer catch.
`k` is the number of transport calls already made, `reqVar`/`prespVar` the
current values of the `request`/`presponse` variables. -/
def innerCatch (B : Behavior) (url : String) (init0 : Option InitObj) (origM : String)
    (e : JsThrown) (reqVar : Option RequestData) (prespVar : Option PromiseRef)
    (k : Nat) (trace : List (RequestData × TransportOutcome)) : RunResult :=
  if chbStr (strOfThrown e) then
    let init1 := mutMethod init0 "POST"
    match construct B 1 url init1 with
    | .error e2 => outerCatch e2 url init1 reqVar prespVar trace
    | .ok r2base =>
      let r2 := setHeader r2base "method" origM
      match B.transport k r2 with
      | .reject e2 =>
        outerCatch e2 url init1 (some r2) prespVar (trace ++ [(r2, .reject e2)])
      | .resolve resp2 =>
        if resp2.status = 405 then
          let init2 := mutMethod init1 origM
          let bodyStash := init2.bind InitObj.body
          let init3 := mutDeleteBody init2
          match construct B 2 url init3 with
          | .error e3 =>
            outerCatch e3 url init3 (some r2) prespVar (trace ++ [(r2, .resolve resp2)])
          | .ok r3base =>
            let r3 := stashBody r3base bodyStash
            match B.transport (k + 1) r3 with
            | .reject e3 =>
              outerCatch e3 url init3 (some r3) (some .p3)
                (trace ++ [(r2, .resolve resp2), (r3, .reject e3)])
            | .resolve resp3 =>
              { result := .ok (mkDecorated resp3 url init3 (some r3) (some .p3))
                finalInit := init3
                calls := trace ++ [(r2, .resolve resp2), (r3, .resolve resp3)] }
        else
          { result := .ok (mkDecorated resp2 url init1 (some r2) prespVar)
            finalInit := init1
            calls := trace ++ [(r2, .resolve resp2)] }
  else
    outerCatch e url init0 reqVar prespVar trace

/-- The wrapped fetch (src/index.js lines 230-293): build the request,
call the stored native transport, and on failure run the retry ladder of
the inner catch; a first-attempt success is decorated and returned. -/
def runFetch (B : Behavior) (url : String) (init0 : Option InitObj) : RunResult :=
  let origM := (init0.bind InitObj.method).getD "GET"
  match construct B 0 url init0 with
  | .error e => innerCatch B url init0 origM e none none 0 []
  | .ok r1 =>
    match B.transport 0 r1 with
    | .resolve resp =>
      { result := .ok (mkDecorated resp url init0 (some r1) (some .p1))
        finalInit := init0
        calls := [(r1, .resolve resp)] }
    | .reject e =>
      innerCatch B url init0 origM e (some r1) (some .p1) 1 [(r1, .reject e)]

/-! ## The body materialization cache (src/index.js lines 298-396)

Per-response state of the patched body machinery.  `rawPayload` is the
transport body; `consumed` whether the native single-shot stream was read;
`cache` the `&buffer` own property; `bodyProp` the stream object installed
once as the `body` own property at materialization; `nextStreamId` a
freshness counter identifying distinct stream objects (the native stream
of the response itself is id 0); `rawReads` counts invocations of the
native `arrayBuffer` stored under the `$arrayBuffer` symbol. -/

structure BodyState where
  rawPayload : List Nat
  consumed : Bool
  cache : Option (List Nat)
  bodyProp : Option Nat
  nextStreamId : Nat
  rawReads : Nat
deriving DecidableEq

/-- Fresh state of a response whose transport body is `payload`. -/
def initBody (payload : List Nat) : BodyState :=
  { rawPayload := payload, consumed := false, cache := none,
    bodyProp := none, nextStreamId := 1, rawReads := 0 }

/-- Errors the body machinery can raise. -/
inductive BodyErr where
  | stackOverflow
  | typeErrNotFn
  | typeErrBodyUsed
  | jsonSyntaxErr
deriving DecidableEq

/-- The native single-shot `arrayBuffer` (`this[$arrayBuffer]()`,
src/index.js line 306/319): reads the whole payload once; a second read of
the disturbed stream fails. -/
def nativeArrayBuffer (s : BodyState) : Except BodyErr (List Nat) × BodyState :=
  if s.consumed then
    (.error .typeErrBodyUsed, { s with rawReads := s.rawReads + 1 })
  else
    (.ok s.rawPayload, { s with consumed := true, rawReads := s.rawReads + 1 })

/-- Values body methods can produce. -/
inductive JsValue where
  | bufV (b : List Nat)
  | strV (s : String)
  | bytesV (b : List Nat)
  | blobV (b : List Nat)
  | formV (entries : List (String × String))
  | streamV (id : Nat) (content : List Nat)
  | rawJson (s : String)
deriving DecidableEq

/-- Model of `String.fromCharCode(...bytes(b))` where `b` may be the absent
`&buffer` of the global object (`bytes(undefined)` is an empty array). -/
def fallbackChars : Option (List Nat) → String
  | none => ""
  | some bs => String.mk (bs.map (fun n => Char.ofNat n))

/-- The installed instance method `text` (src/index.js lines 326-333) is a
named function expression whose name shadows the outer `text` helper, so
`return text(this["&buffer"])` is a self-call with `this` rebound to the
global object (which has no `&buffer`).  The recursion runs until the call
stack is exhausted (`fuel` frames); the frame where the RangeError lands
catches it and returns the `String.fromCharCode` fallback over *its own*
`this["&buffer"]`, which for every frame but the outermost is absent. -/
def textRec : Nat → Option (List Nat) → Except BodyErr String
  | 0, _ => .error .stackOverflow
  | n + 1, thisBuf =>
    match textRec n none with
    | .ok s => .ok s
    | .error _ => .ok (fallbackChars thisBuf)

/-- The installed instance method `bytes` (src/index.js lines 337-339):
`return bytes(this["&buffer"])` is likewise a self-call, with no
surrounding `try`, so the stack exhaustion propagates to the caller. -/
def bytesRec : Nat → Except BodyErr (List Nat)
  | 0 => .error .stackOverflow
  | n + 1 => bytesRec n

/-- The installed instance method `blob` (src/index.js lines 334-336):
`return blob(this["&buffer"])`, the same self-call shape as `bytes`. -/
def blobRec : Nat → Except BodyErr (List Nat)
  | 0 => .error .stackOverflow
  | n + 1 => blobRec n

/-- Host `JSON.parse`, modelled only as far as the code can reach it: it
rejects input that is empty or all whitespace; a non-empty parse is
represented by the raw text. -/
def jsonParse (s : String) : Except BodyErr JsValue :=
  if (s.toList.filter (fun c => !(c == ' ' || c == '\t' || c == '\n' || c == '\r'))).isEmpty
  then .error .jsonSyntaxErr
  else .ok (.rawJson s)

/-! ### The best-effort form extractor (src/index.js lines 343-369) -/

/-- JS `\w` word characters. -/
def jsWord (c : Char) : Bool :=
  (c ≥ 'a' && c ≤ 'z') || (c ≥ 'A' && c ≤ 'Z') || (c ≥ '0' && c ≤ '9') || c == '_'

/-- JS `\s` whitespace (the characters exercised here). -/
def jsSpace (c : Char) : Bool :=
  c == ' ' || c == '\t' || c == '\n' || c == '\r' || c == Char.ofNat 11 || c == Char.ofNat 12

/-- Model of `txt.match(/^-{2}[\w]+/)?.[0]`: at the very start of the text,
two dashes followed by a maximal nonempty run of word characters. -/
def boundaryOf (t : List Char) : Option (List Char) :=
  match t with
  | '-' :: '-' :: rest =>
    let w := rest.takeWhile jsWord
    if w.isEmpty then none else some ('-' :: '-' :: w)
  | _ => none

/-- JS `String.prototype.trim` over a character list. -/
def trimChars (t : List Char) : List Char :=
  ((t.dropWhile jsSpace).reverse.dropWhile jsSpace).reverse

/-- Greedy-with-backtracking match of `\s*\r\n\r\n`: try the longest
whitespace prefix of length at most `w` that is followed by the literal
`\r\n\r\n`, returning the rest of the text after the literal. -/
def greedyWsCrlf : Nat → List Char → Option (List Char)
  | w, t =>
    if startsWithL ['\r', '\n', '\r', '\n'] (t.drop w) then
      some ((t.drop w).drop 4)
    else
      match w with
      | 0 => none
      | w' + 1 => greedyWsCrlf w' t

/-- Lazy match of `([\s\S]*?)\r\n<boundary>`: the shortest content prefix
followed by CRLF and the boundary, returning the content and the rest of
the text after the boundary. -/
def lazyContent (boundary : List Char) : List Char → Option (List Char × List Char)
  | [] => none
  | c :: cs =>
    if startsWithL ('\r' :: '\n' :: boundary) (c :: cs) then
      some ([], (c :: cs).drop (2 + boundary.length))
    else
      match lazyContent boundary cs with
      | some (content, rest) => some (c :: content, rest)
      | none => none

/-- One match of `name="([^"]+)"\s*\r\n\r\n([\s\S]*?)\r\n<boundary>`
anchored at the start of `t`, returning key, content and the rest of the
text after the match. -/
def matchAt (boundary : List Char) (t : List Char) : Option (List Char × List Char × List Char) :=
  if startsWithL ['n', 'a', 'm', 'e', '=', '"'] t then
    let t1 := t.drop 6
    let key := t1.takeWhile (fun c => !(c == '"'))
    if key.isEmpty then none
    else
      match t1.drop key.length with
      | '"' :: t2 =>
        let wsLen := (t2.takeWhile jsSpace).length
        match greedyWsCrlf wsLen t2 with
        | none => none
        | some t3 =>
          match lazyContent boundary t3 with
          | none => none
          | some (content, rest) => some (key, content, rest)
      | _ => none
  else none

/-- The global `regex.exec` loop: find the leftmost match at or after the
current position, emit `(key, trimmed content)`, continue after the match.
The fuel is an upper bound on the scan length; every recursive call
strictly shrinks the text, so `length + 1` fuel never runs out. -/
def scanForm (boundary : List Char) : Nat → List Char → List (String × String)
  | 0, _ => []
  | _ + 1, [] => []
  | n + 1, c :: cs =>
    match matchAt boundary (c :: cs) with
    | some (key, content, rest) =>
      (String.mk key, String.mk (trimChars content)) :: scanForm boundary n rest
    | none => scanForm boundary n cs

/-- The form extraction of the installed `formData` (src/index.js lines
350-362): boundary from the text (stringified `null` when absent), then
the global regex scan collecting ordered `(key, value)` entries. -/
def extractForm (txt : String) : List (String × String) :=
  let t := txt.toList
  let boundary := (boundaryOf t).getD ("null".toList)
  scanForm boundary (t.length + 1) t

/-! ### Method dispatch -/

/-- The patched body-method names. -/
inductive MethodName where
  | mArrayBuffer
  | mBlob
  | mFormData
  | mJson
  | mText
  | mBytes
  | mStream
deriving DecidableEq

/-- Semantics of the installed instance methods, once `&buffer` is cached
(src/index.js lines 323-377).  `fuel` is the available call-stack depth.
`formData` catches a throwing `this.text()` and appends the error's name
and message as a single entry (line 365). -/
def instSem (fuel : Nat) (m : MethodName) (s : BodyState) :
    Except BodyErr JsValue × BodyState :=
  let buf := s.cache.getD []
  match m with
  | .mArrayBuffer => (.ok (.bufV buf), s)
  | .mText => ((textRec fuel (some buf)).map JsValue.strV, s)
  | .mBytes => ((bytesRec fuel).map JsValue.bytesV, s)
  | .mBlob => ((blobRec fuel).map JsValue.blobV, s)
  | .mJson =>
    match textRec fuel (some buf) with
    | .error e => (.error e, s)
    | .ok t => (jsonParse t, s)
  | .mFormData =>
    match textRec fuel (some buf) with
    | .error _ =>
      (.ok (.formV [("RangeError", "Maximum call stack size exceeded")]), s)
    | .ok t => (.ok (.formV (extractForm t)), s)
  | .mStream =>
    (.ok (.streamV s.nextStreamId buf), { s with nextStreamId := s.nextStreamId + 1 })

/-- Whether a call completes as a promise (the async prototype wrapper) or
as a plain synchronous return/throw (an installed instance method). -/
inductive CallKind where
  | promise
  | plain
deriving DecidableEq

deriving instance DecidableEq for Except

/-- Outcome of one body-method call. -/
structure CallOutcome where
  kind : CallKind
  value : Except BodyErr JsValue
deriving DecidableEq

/-- One call of a patched body method (src/index.js lines 316-381).  With
the cache installed, the own instance property shadows the prototype and
runs synchronously.  Otherwise the async prototype wrapper runs: it reads
the native single-shot `arrayBuffer`, stores `&buffer`, installs the
instance methods and the `body` stream (a fresh stream over the cache),
and then evaluates `this[method]()` — where `method`, the wrapper's own
function-expression name, shadows the outer string parameter, so the
property key is the function's source text and the call is a TypeError,
rejecting the wrapper's promise. -/
def callMethod (fuel : Nat) (m : MethodName) (s : BodyState) : CallOutcome × BodyState :=
  match s.cache with
  | some _ =>
    let r := instSem fuel m s
    (⟨.plain, r.1⟩, r.2)
  | none =>
    match nativeArrayBuffer s with
    | (.error e, s1) => (⟨.promise, .error e⟩, s1)
    | (.ok buf, s1) =>
      let s2 : BodyState :=
        { s1 with
            cache := some buf
            bodyProp := some s1.nextStreamId
            nextStreamId := s1.nextStreamId + 1 }
      (⟨.promise, .error .typeErrNotFn⟩, s2)

/-- Reading the `body` property: after materialization it is the one stream
object installed at line 370-374 (the same object on every access); before
materialization it is the response's native stream (id 0). -/
def readBodyProp (s : BodyState) : Except BodyErr JsValue × BodyState :=
  match s.cache, s.bodyProp with
  | some buf, some id => (.ok (.streamV id buf), s)
  | _, _ => (.ok (.streamV 0 s.rawPayload), s)

/-- An operation a caller can perform on the response body. -/
inductive BodyOp where
  | call (m : MethodName)
  | readBody
deriving DecidableEq

/-- Run a sequence of body operations, collecting the outcome of each. -/
def runOps (fuel : Nat) : List BodyOp → BodyState → List CallOutcome × BodyState
  | [], s => ([], s)
  | .call m :: ops, s =>
    let r := callMethod fuel m s
    let rest := runOps fuel ops r.2
    (r.1 :: rest.1, rest.2)
  | .readBody :: ops, s =>
    let r := readBodyProp s
    let rest := runOps fuel ops r.2
    (⟨.plain, r.1⟩ :: rest.1, rest.2)

/-! ## Claim predicates and concrete scenarios -/

/-- The wrapped fetch resolves with a response (does not reject). -/
def resolvesToResponse (R : RunResult) : Prop :=
  ∃ d, R.result = .ok d

/-- A thrown value the outer catch can convert into a synthetic response:
an error object (not the `null`/`undefined` primitive) whose message is a
valid `statusText` reason phrase (the value the outer catch hands to the
host `Response` constructor). -/
def tameThrown : JsThrown → Prop
  | .obj o => validReasonPhrase o.message = true
  | .nul => False

/-- Every value the host can throw at the orchestrator is tame. -/
def tameErrors (B : Behavior) : Prop :=
  (∀ n e, B.ctorFail n = some e → tameThrown e) ∧
  (∀ n r e, B.transport n r = .reject e → tameThrown e)

/-- The first attempt of a run on `(url, some i)` fails with the thrown
value `e`, whose string form matches `cannot have body`; `k` is the number
of transport calls the first attempt consumed (0 when the `Request`
constructor itself threw, 1 when the transport rejected). -/
def FirstAttemptCHB (B : Behavior) (url : String) (i : InitObj) (e : JsThrown) (k : Nat) : Prop :=
  chbStr (strOfThrown e) = true ∧
  ((k = 0 ∧ construct B 0 url (some i) = .error e) ∨
   (k = 1 ∧ ∃ r1, construct B 0 url (some i) = .ok r1 ∧ B.transport 0 r1 = .reject e))

/-- The provenance decorations of a run's response are write-once (and
non-enumerable), as the spec asserts. -/
def writeOnceDecorations (R : RunResult) : Prop :=
  ∀ d, R.result = .ok d → d.attrs.writable = false ∧ d.attrs.enumerable = false

/-- Distinct body-view accesses always yield distinct (fresh) stream
objects, as the spec asserts for `body` and `stream()`. -/
def freshViewEachAccess (outs : List CallOutcome) : Prop :=
  ∀ i1 i2 id1 id2 c1 c2, i1 ≠ i2 →
    outs.get? i1 = some ⟨.plain, .ok (.streamV id1 c1)⟩ →
    outs.get? i2 = some ⟨.plain, .ok (.streamV id2 c2)⟩ →
    id1 ≠ id2

/-- Cache invariant of a response's body state: the payload is fixed, no
native read has happened before materialization, and the cache, once set,
holds the payload and records exactly one native read. -/
def cacheInv (payload : List Nat) (s : BodyState) : Prop :=
  s.rawPayload = payload ∧
  (s.cache = none → s.rawReads = 0 ∧ s.consumed = false) ∧
  (∀ b, s.cache = some b → b = payload ∧ s.rawReads = 1)

/-- A transport that rejects every call with the `null` primitive. -/
def rejectNulB : Behavior :=
  { ctorFail := fun _ => none, transport := fun _ _ => .reject .nul }

/-- A transport that rejects every call with the given thrown value. -/
def constRejectB (e : JsThrown) : Behavior :=
  { ctorFail := fun _ => none, transport := fun _ _ => .reject e }

/-- An empty response with the given status. -/
def emptyResp (st : Nat) : ResponseData :=
  { status := st, statusText := "", headers := [], payload := "" }

/-- A transport that resolves every call with an empty response of the
given status. -/
def okB (st : Nat) : Behavior :=
  { ctorFail := fun _ => none, transport := fun _ _ => .resolve (emptyResp st) }

/-- The options object of the demo call at the end of src/index.js:
method `get` with a non-empty body. -/
def i6 : InitObj := { method := some "get", headers := [], body := some "h" }

/-- An error object whose own properties are `name: X` and `message: Y`. -/
def o5 : JsErrObj :=
  { name := "X", message := "Y", ownProps := [("name", "X"), ("message", "Y")] }

/-- An error object with a multi-line message: its message is not a valid
`statusText` reason phrase, so synthesizing a response from it makes the
host `Response` constructor throw. -/
def multilineErr : JsErrObj :=
  { name := "Error", message := "bad\nrequest", ownProps := [("message", "bad\nrequest")] }

/-- The multipart sample text of the spec's form-extraction property. -/
def sampleForm : String :=
  "--B\r\nname=\"a\"\r\n\r\n1\r\n--B\r\nname=\"b\"\r\n\r\n2\r\n--B"

/-- The sample text as transport payload bytes. -/
def sampleBytes : List Nat := sampleForm.toList.map Char.toNat

/-- The two-byte payload `hi`. -/
def hiBytes : List Nat := [104, 105]

/-- The attempt-2 request of the retry ladder for options `i`: rebuilt
with method POST and the original method recorded in a `method` header. -/
def retryReq (url : String) (i : InitObj) : RequestData :=
  setHeader (mkReq url (some { i with method := some "POST" })) "method" (i.method.getD "GET")

/-- The attempt-3 request of the retry ladder for options `i`: the
original method restored, the body removed and best-effort stashed into a
`body` header. -/
def thirdReq (url : String) (i : InitObj) : RequestData :=
  stashBody (mkReq url (some { i with method := some (i.method.getD "GET"), body := none })) i.body

/-! ## Helper lemmas -/

@[simp]
lemma normalizeMethod_POST : normalizeMethod "POST" = "POST" := by decide

@[simp]
lemma normalizeMethod_GET : normalizeMethod "GET" = "GET" := by decide

@[simp]
lemma bodyForbidden_POST : bodyForbidden "POST" = false := by decide

@[simp]
lemma setHeader_method (r : RequestData) (n v : String) :
    (setHeader r n v).method = r.method := rfl

@[simp]
lemma setHeader_body (r : RequestData) (n v : String) :
    (setHeader r n v).body = r.body := rfl

@[simp]
lemma stashBody_method (r : RequestData) (b : Option String) :
    (stashBody r b).method = r.method := by
  unfold stashBody
  cases b with
  | none => rfl
  | some v =>
    by_cases h1 : v == ""
    · simp [h1]
    · by_cases h2 : validHeaderValue v <;> simp [h1, h2]

@[simp]
lemma stashBody_body (r : RequestData) (b : Option String) :
    (stashBody r b).body = r.body := by
  unfold stashBody
  cases b with
  | none => rfl
  | some v =>
    by_cases h1 : v == ""
    · simp [h1]
    · by_cases h2 : validHeaderValue v <;> simp [h1, h2]

lemma find?_filter_append (l : List (String × String)) (n v : String) :
    ((l.filter (fun p => !(lcList p.1 == lcList n))) ++ [(n, v)]).find?
      (fun p => lcList p.1 == lcList n) = some (n, v) := by
  induction l with
  | nil => simp [List.find?]
  | cons hd tl ih =>
    by_cases h : (lcList hd.1 == lcList n) = true
    · simp [List.filter, h, ih]
    · simp only [Bool.not_eq_true] at h
      simp [List.filter, List.find?, h, ih]

lemma lookupHeader_setHeader (r : RequestData) (n v : String) :
    lookupHeader (setHeader r n v).headers n = some v := by
  unfold lookupHeader setHeader
  simp [find?_filter_append]

lemma outerCatch_ok (e : JsThrown) (url : String) (ci : Option InitObj)
    (rv : Option RequestData) (pv : Option PromiseRef)
    (tr : List (RequestData × TransportOutcome)) (h : tameThrown e) :
    ∃ d, (outerCatch e url ci rv pv tr).result = .ok d := by
  cases e with
  | nul => exact absurd h (by intro hx; cases hx)
  | obj o =>
    unfold outerCatch
    dsimp only
    rw [if_pos (show validReasonPhrase o.message = true from h)]
    exact ⟨_, rfl⟩

lemma construct_tame (B : Behavior) (i : Nat) (url : String) (init : Option InitObj)
    (e : JsThrown) (hB : ∀ n x, B.ctorFail n = some x → tameThrown x)
    (h : construct B i url init = .error e) : tameThrown e := by
  unfold construct at h
  cases hc : B.ctorFail i with
  | some x =>
    rw [hc] at h
    cases h
    exact hB i e hc
  | none =>
    rw [hc] at h
    dsimp only at h
    by_cases hb : (bodyForbidden (mkReq url init).method && (mkReq url init).body.isSome) = true
    · rw [if_pos hb] at h
      cases h
      show validReasonPhrase ctorBodyError.message = true
      decide
    · rw [if_neg hb] at h
      cases h

lemma innerCatch_ok (B : Behavior) (url : String) (init0 : Option InitObj)
    (origM : String) (e : JsThrown) (rv : Option RequestData) (pv : Option PromiseRef)
    (k : Nat) (tr : List (RequestData × TransportOutcome))
    (hB : tameErrors B) (he : tameThrown e) :
    ∃ d, (innerCatch B url init0 origM e rv pv k tr).result = .ok d := by
  unfold innerCatch
  by_cases hchb : chbStr (strOfThrown e) = true
  · rw [if_pos hchb]
    dsimp only
    cases hc1 : construct B 1 url (mutMethod init0 "POST") with
    | error e2 =>
      exact outerCatch_ok _ _ _ _ _ _ (construct_tame B 1 url _ e2 hB.1 hc1)
    | ok r2base =>
      dsimp only
      cases ht : B.transport k (setHeader r2base "method" origM) with
      | reject e2 =>
        exact outerCatch_ok _ _ _ _ _ _ (hB.2 k _ e2 ht)
      | resolve resp2 =>
        dsimp only
        by_cases h405 : resp2.status = 405
        · rw [if_pos h405]
          cases hc2 : construct B 2 url (mutDeleteBody (mutMethod (mutMethod init0 "POST") origM)) with
          | error e3 =>
            exact outerCatch_ok _ _ _ _ _ _ (construct_tame B 2 url _ e3 hB.1 hc2)
          | ok r3base =>
            dsimp only
            cases ht3 : B.transport (k + 1)
                (stashBody r3base ((mutMethod (mutMethod init0 "POST") origM).bind InitObj.body)) with
            | reject e3 =>
              exact outerCatch_ok _ _ _ _ _ _ (hB.2 (k + 1) _ e3 ht3)
            | resolve resp3 =>
              exact ⟨_, rfl⟩
        · rw [if_neg h405]
          exact ⟨_, rfl⟩
  · rw [if_neg hchb]
    exact outerCatch_ok _ _ _ _ _ _ he

/-! ## The retry ladder, characterized -/

/-- Result of the retry ladder (the body of the inner catch) once the
first attempt has failed with a `cannot have body` error on options `i`:
`pv` is the current `presponse`, `k` the number of transport calls already
made, `tr` the trace so far. -/
def ladderRun (B : Behavior) (url : String) (i : InitObj) (pv : Option PromiseRef) (k : Nat)
    (tr : List (RequestData × TransportOutcome)) : RunResult :=
  let origM := i.method.getD "GET"
  let init1 : Option InitObj := some { i with method := some "POST" }
  let r2 := retryReq url i
  match B.transport k r2 with
  | .reject e2 => outerCatch e2 url init1 (some r2) pv (tr ++ [(r2, .reject e2)])
  | .resolve resp2 =>
    if resp2.status = 405 then
      let init3 : Option InitObj := some { i with method := some origM, body := none }
      let r3 := thirdReq url i
      match B.transport (k + 1) r3 with
      | .reject e3 =>
        outerCatch e3 url init3 (some r3) (some .p3)
          (tr ++ [(r2, .resolve resp2), (r3, .reject e3)])
      | .resolve resp3 =>
        { result := .ok (mkDecorated resp3 url init3 (some r3) (some .p3))
          finalInit := init3
          calls := tr ++ [(r2, .resolve resp2), (r3, .resolve resp3)] }
    else
      { result := .ok (mkDecorated resp2 url init1 (some r2) pv)
        finalInit := init1
        calls := tr ++ [(r2, .resolve resp2)] }

lemma construct_POST (B : Behavior) (url : String) (i : InitObj)
    (hc1 : B.ctorFail 1 = none) :
    construct B 1 url (some { i with method := some "POST" }) =
      .ok (mkReq url (some { i with method := some "POST" })) := by
  unfold construct
  rw [hc1]
  dsimp only
  rw [if_neg]
  simp [mkReq]

lemma construct_third (B : Behavior) (url : String) (i : InitObj) (m : String)
    (hc2 : B.ctorFail 2 = none) :
    construct B 2 url (some { i with method := some m, body := none }) =
      .ok (mkReq url (some { i with method := some m, body := none })) := by
  unfold construct
  rw [hc2]
  dsimp only
  rw [if_neg]
  simp [mkReq]

lemma outerCatch_calls (e : JsThrown) (url : String) (ci : Option InitObj)
    (rv : Option RequestData) (pv : Option PromiseRef)
    (tr : List (RequestData × TransportOutcome)) :
    (outerCatch e url ci rv pv tr).calls = tr := by
  cases e with
  | nul => rfl
  | obj o =>
    unfold outerCatch
    dsimp only
    split <;> rfl

lemma outerCatch_finalInit (e : JsThrown) (url : String) (ci : Option InitObj)
    (rv : Option RequestData) (pv : Option PromiseRef)
    (tr : List (RequestData × TransportOutcome)) :
    (outerCatch e url ci rv pv tr).finalInit = ci := by
  cases e with
  | nul => rfl
  | obj o =>
    unfold outerCatch
    dsimp only
    split <;> rfl

lemma innerCatch_char (B : Behavior) (url : String) (i : InitObj) (e : JsThrown)
    (rv : Option RequestData) (pv : Option PromiseRef) (k : Nat)
    (tr : List (RequestData × TransportOutcome))
    (hchb : chbStr (strOfThrown e) = true)
    (hc1 : B.ctorFail 1 = none) (hc2 : B.ctorFail 2 = none) :
    innerCatch B url (some i) (i.method.getD "GET") e rv pv k tr = ladderRun B url i pv k tr := by
  unfold innerCatch ladderRun
  rw [if_pos hchb]
  dsimp only [mutMethod]
  rw [construct_POST B url i hc1]
  dsimp only [retryReq]
  cases ht : B.transport k (setHeader (mkReq url (some { i with method := some "POST" }))
      "method" (i.method.getD "GET")) with
  | reject e2 => rfl
  | resolve resp2 =>
    dsimp only
    by_cases h405 : resp2.status = 405
    · rw [if_pos h405, if_pos h405]
      dsimp only [mutMethod, mutDeleteBody, Option.bind]
      rw [construct_third B url i (i.method.getD "GET") hc2]
      dsimp only [thirdReq, Option.bind]
    · rw [if_neg h405, if_neg h405]

/-- Under a `cannot have body` failure of the first attempt on options
`i`, the whole run is the retry ladder, preceded by the `k` transport
calls of the first attempt. -/
lemma runFetch_chb (B : Behavior) (url : String) (i : InitObj) (e : JsThrown) (k : Nat)
    (hf : FirstAttemptCHB B url i e k)
    (hc1 : B.ctorFail 1 = none) (hc2 : B.ctorFail 2 = none) :
    ∃ pre : List (RequestData × TransportOutcome), pre.length = k ∧
      runFetch B url (some i) =
        ladderRun B url i (if k = 0 then none else some .p1) k pre := by
  obtain ⟨hchb, hcase⟩ := hf
  rcases hcase with ⟨hk, hctor⟩ | ⟨hk, r1, hok, hrej⟩
  · subst hk
    refine ⟨[], rfl, ?_⟩
    unfold runFetch
    dsimp only
    rw [hctor]
    exact innerCatch_char B url i e none none 0 [] hchb hc1 hc2
  · subst hk
    refine ⟨[(r1, .reject e)], rfl, ?_⟩
    unfold runFetch
    dsimp only
    rw [hok]
    dsimp only
    rw [hrej]
    exact innerCatch_char B url i e (some r1) (some .p1) 1 [(r1, .reject e)] hchb hc1 hc2

/-! ## Claim C1 -/

/-- C1, as stated, is false, on two independent rejection classes of the
outer catch itself.  First, when the transport rejects with the `null`
primitive, the inner classifier rethrows it and the outer catch evaluates
`Object.getOwnPropertyNames(null)`, which throws a TypeError.  Second,
when the transport rejects with an ordinary error object whose message is
not a valid `statusText` reason phrase (here a multi-line message), the
outer catch's `new Response(..., { statusText: e.message, ... })` throws
a TypeError.  In both cases the wrapped fetch itself rejects instead of
resolving with a Response. -/
theorem C1_counterexample :
    ¬ resolvesToResponse (runFetch rejectNulB "https://x/" none) ∧
    ¬ resolvesToResponse (runFetch (constRejectB (.obj multilineErr)) "https://x/" none) := by
  constructor
  · rintro ⟨d, h⟩
    rw [show (runFetch rejectNulB "https://x/" none).result
        = .error (.obj typeErrorNul) from by decide] at h
    cases h
  · rintro ⟨d, h⟩
    rw [show (runFetch (constRejectB (.obj multilineErr)) "https://x/" none).result
        = .error (.obj statusTextError) from by decide] at h
    cases h

/-- C1 (amended): for every call (any target, any options) and every
behaviour of the transport and of the request constructor in which each
thrown or rejected value is tame — an error object, not the
`null`/`undefined` primitive, whose message is a valid `statusText`
reason phrase (single-line, no code point above `0xFF`) — the wrapped
fetch never rejects: it always resolves with a response, real or
synthetic. -/
theorem C1_always_response (B : Behavior) (url : String) (init : Option InitObj)
    (hB : tameErrors B) : resolvesToResponse (runFetch B url init) := by
  unfold runFetch resolvesToResponse
  dsimp only
  cases hc : construct B 0 url init with
  | error e =>
    exact innerCatch_ok B url init _ e none none 0 [] hB
      (construct_tame B 0 url init e hB.1 hc)
  | ok r1 =>
    dsimp only
    cases ht : B.transport 0 r1 with
    | resolve resp => exact ⟨_, rfl⟩
    | reject e =>
      exact innerCatch_ok B url init _ e (some r1) (some .p1) 1 _ hB (hB.2 0 r1 e ht)

/-- C1 witness: the amended theorem applied to a concrete behaviour that
rejects every call with a tame error object. -/
theorem C1_witness :
    tameErrors (constRejectB (.obj o5)) ∧
    resolvesToResponse (runFetch (constRejectB (.obj o5)) "u" none) := by
  have hB : tameErrors (constRejectB (.obj o5)) := by
    constructor
    · intro n e h
      cases h
    · intro n r e h
      cases h
      show validReasonPhrase o5.message = true
      decide
  exact ⟨hB, C1_always_response (constRejectB (.obj o5)) "u" none hB⟩

/-! ## Claim C2 -/

lemma retryReq_method (url : String) (i : InitObj) : (retryReq url i).method = "POST" := by
  simp [retryReq, mkReq, Option.bind]

lemma thirdReq_method (url : String) (i : InitObj) :
    (thirdReq url i).method = normalizeMethod (i.method.getD "GET") := by
  simp [thirdReq, mkReq, Option.bind]

lemma thirdReq_body (url : String) (i : InitObj) : (thirdReq url i).body = none := by
  simp [thirdReq, mkReq, Option.bind]

/-- C2: if the first attempt fails with a `cannot have body` error (the
request constructor throwing before any transport call, `k = 0`, or the
transport rejecting the first call, `k = 1`), then the second transport
attempt is sent with method POST and the original method recorded in a
`method` request header; if that attempt resolves with a status other than
405 it is the last transport call and its response is returned unchanged
aside from the provenance decoration, and if it resolves with 405 a third
and final attempt is sent with the original method restored and no body
(the body, when present and header-safe, stashed into a `body` header as
part of `thirdReq`). -/
theorem fetch_retry_ladder (B : Behavior) (url : String) (i : InitObj) (e : JsThrown) (k : Nat)
    (hf : FirstAttemptCHB B url i e k)
    (hc1 : B.ctorFail 1 = none) (hc2 : B.ctorFail 2 = none) :
    (retryReq url i).method = "POST" ∧
    lookupHeader (retryReq url i).headers "method" = some (i.method.getD "GET") ∧
    ∀ resp2, B.transport k (retryReq url i) = .resolve resp2 →
      (resp2.status ≠ 405 →
        (runFetch B url (some i)).calls.drop k = [(retryReq url i, .resolve resp2)] ∧
        (runFetch B url (some i)).result = .ok
          { resp := resp2, argsUrl := url
            argsInit := some { i with method := some "POST" }
            req := some (retryReq url i)
            presp := if k = 0 then none else some PromiseRef.p1
            attrs := objDefPropAttrs }) ∧
      (resp2.status = 405 →
        (thirdReq url i).method = normalizeMethod (i.method.getD "GET") ∧
        (thirdReq url i).body = none ∧
        (runFetch B url (some i)).calls.drop k =
          [(retryReq url i, .resolve resp2),
           (thirdReq url i, B.transport (k + 1) (thirdReq url i))]) := by
  obtain ⟨pre, hlen, hrun⟩ := runFetch_chb B url i e k hf hc1 hc2
  refine ⟨retryReq_method url i, ?_, ?_⟩
  · unfold retryReq
    exact lookupHeader_setHeader _ _ _
  · intro resp2 ht
    rw [hrun]
    unfold ladderRun
    dsimp only
    rw [ht]
    dsimp only
    constructor
    · intro hne
      rw [if_neg hne]
      refine ⟨?_, rfl⟩
      exact List.drop_left' hlen
    · intro h405
      rw [if_pos h405]
      refine ⟨thirdReq_method url i, thirdReq_body url i, ?_⟩
      cases ht3 : B.transport (k + 1) (thirdReq url i) with
      | reject e3 =>
        rw [outerCatch_calls]
        exact List.drop_left' hlen
      | resolve resp3 =>
        exact List.drop_left' hlen

/-- C2 witness: the demo options (method `get`, body `"h"`) against a
transport resolving status 200: the request constructor throws the
`cannot have body` TypeError (`k = 0`), the retry is sent as POST with the
original method in a header, resolves 200 and is returned decorated. -/
theorem fetch_retry_ladder_witness :
    FirstAttemptCHB (okB 200) "u" i6 (.obj ctorBodyError) 0 ∧
    (runFetch (okB 200) "u" (some i6)).calls.drop 0 =
      [(retryReq "u" i6, .resolve (emptyResp 200))] ∧
    (runFetch (okB 200) "u" (some i6)).result = .ok
      { resp := emptyResp 200, argsUrl := "u"
        argsInit := some { i6 with method := some "POST" }
        req := some (retryReq "u" i6)
        presp := none
        attrs := objDefPropAttrs } := by
  have hf : FirstAttemptCHB (okB 200) "u" i6 (.obj ctorBodyError) 0 := by
    constructor
    · decide
    · exact Or.inl ⟨rfl, by decide⟩
  have h := ((fetch_retry_ladder (okB 200) "u" i6 (.obj ctorBodyError) 0 hf rfl rfl).2.2
    (emptyResp 200) rfl).1 (by decide)
  exact ⟨hf, h.1, h.2⟩

/-! ## Claim C6 -/

/-- C6, as stated, is false: the orchestrator mutates the caller-supplied
options object in place.  With the demo options (method `get`, body `"h"`)
and a transport resolving status 200, the `Request` constructor throws the
`cannot have body` error, the retry forces the caller's `method` to POST,
attempt 2 wins with 200, and the call returns leaving the caller's object
with `method: "POST"`. -/
theorem C6_counterexample :
    (runFetch (okB 200) "u" (some i6)).finalInit ≠ some i6 := by
  decide

/-- C6 (amended): the between-attempt mutations are applied to the
caller's options object itself and persist after the call returns: when
the `cannot have body` retry ends at attempt 2 (status other than 405) the
options keep the forced method POST; when attempt 3 runs (status 405) the
method is restored to the original but the `body` property has been
deleted. -/
theorem options_mutated (B : Behavior) (url : String) (i : InitObj) (e : JsThrown) (k : Nat)
    (hf : FirstAttemptCHB B url i e k)
    (hc1 : B.ctorFail 1 = none) (hc2 : B.ctorFail 2 = none) :
    ∀ resp2, B.transport k (retryReq url i) = .resolve resp2 →
      (resp2.status ≠ 405 →
        (runFetch B url (some i)).finalInit = some { i with method := some "POST" }) ∧
      (resp2.status = 405 →
        (runFetch B url (some i)).finalInit =
          some { i with method := some (i.method.getD "GET"), body := none }) := by
  obtain ⟨pre, hlen, hrun⟩ := runFetch_chb B url i e k hf hc1 hc2
  intro resp2 ht
  rw [hrun]
  unfold ladderRun
  dsimp only
  rw [ht]
  dsimp only
  constructor
  · intro hne
    rw [if_neg hne]
  · intro h405
    rw [if_pos h405]
    cases ht3 : B.transport (k + 1) (thirdReq url i) with
    | reject e3 => exact outerCatch_finalInit _ _ _ _ _ _
    | resolve resp3 => rfl

/-- C6 witness: the amended theorem at the demo options against a
405-then-405 transport — after the call the caller's object has its
original method back but its body deleted. -/
theorem options_mutated_witness :
    FirstAttemptCHB (okB 405) "u" i6 (.obj ctorBodyError) 0 ∧
    (runFetch (okB 405) "u" (some i6)).finalInit =
      some { i6 with method := some "get", body := none } := by
  have hf : FirstAttemptCHB (okB 405) "u" i6 (.obj ctorBodyError) 0 := by
    constructor
    · decide
    · exact Or.inl ⟨rfl, by decide⟩
  have h := (options_mutated (okB 405) "u" i6 (.obj ctorBodyError) 0 hf rfl rfl
    (emptyResp 405) rfl).2 (by decide)
  exact ⟨hf, h⟩

/-! ## Claim C5 -/

/-- C5: when the transport rejects the first attempt with an unclassified
error object (its string form not matching `cannot have body`), the run
resolves with the synthetic response: status 569, status text the error's
message, a `content-type: text/html` header, and as body the
newline-joined `name: value` lines of every own property of the error.
The error's message must be a valid `statusText` reason phrase (it is the
value handed to the host `Response` constructor); the claim's instance,
message `Y`, is one. -/
theorem error_synthesis (o : JsErrObj) (url : String)
    (h : chbStr (errToString o) = false)
    (hv : validReasonPhrase o.message = true) :
    (runFetch (constRejectB (.obj o)) url none).result = .ok
      { resp :=
          { status := 569
            statusText := o.message
            headers := [("content-type", "text/html")]
            payload := joinPropLines o.ownProps }
        argsUrl := url, argsInit := none
        req := some (mkReq url none), presp := some .p1
        attrs := objDefPropAttrs } := by
  unfold runFetch
  dsimp only
  rw [show construct (constRejectB (.obj o)) 0 url none = .ok (mkReq url none) from by
    unfold construct constRejectB
    dsimp only
    rw [if_neg]
    simp [mkReq, Option.bind]]
  dsimp only
  rw [show (constRejectB (.obj o)).transport 0 (mkReq url none) = .reject (.obj o) from rfl]
  dsimp only
  unfold innerCatch
  rw [if_neg (by simp [strOfThrown, h])]
  unfold outerCatch
  dsimp only
  rw [if_pos hv]
  rfl

/-- C5 witness: the error object with own properties `name: X` and
`message: Y` yields status 569, status text `Y`, content type
`text/html`, and a body containing the line `name: X` and the line
`message: Y`. -/
theorem error_synthesis_witness :
    chbStr (errToString o5) = false ∧
    validReasonPhrase o5.message = true ∧
    (runFetch (constRejectB (.obj o5)) "u" none).result = .ok
      { resp :=
          { status := 569, statusText := "Y"
            headers := [("content-type", "text/html")]
            payload := "name: X\nmessage: Y" }
        argsUrl := "u", argsInit := none
        req := some (mkReq "u" none), presp := some .p1
        attrs := objDefPropAttrs } ∧
    joinPropLines o5.ownProps = "name: X" ++ "\n" ++ "message: Y" := by
  refine ⟨by decide, by decide, ?_, by decide⟩
  have h := error_synthesis o5 "u" (by decide) (by decide)
  rw [h]
  rfl

/-! ## Claim C7 -/

/-- C7, as stated, is false: the decorations are installed with
`objDefProp`, which makes them writable and configurable, so they are not
write-once.  Concretely, a plain successful call returns a response whose
decoration descriptor has `writable: true`. -/
theorem C7_counterexample : ¬ writeOnceDecorations (runFetch (okB 200) "u" none) := by
  intro h
  have hd : (runFetch (okB 200) "u" none).result =
      .ok (mkDecorated (emptyResp 200) "u" none (some (mkReq "u" none)) (some .p1)) := by
    decide
  have hw := (h _ hd).1
  simp [mkDecorated, objDefPropAttrs] at hw

lemma outerCatch_flags (e : JsThrown) (url : String) (ci : Option InitObj)
    (rv : Option RequestData) (pv : Option PromiseRef)
    (tr : List (RequestData × TransportOutcome)) (d : Decorated)
    (h : (outerCatch e url ci rv pv tr).result = .ok d) :
    d.argsUrl = url ∧ d.attrs = objDefPropAttrs ∧ d.presp = pv := by
  cases e with
  | nul => cases h
  | obj o =>
    unfold outerCatch at h
    dsimp only at h
    by_cases hv : validReasonPhrase o.message = true
    · rw [if_pos hv] at h
      cases h
      exact ⟨rfl, rfl, rfl⟩
    · rw [if_neg hv] at h
      cases h

lemma innerCatch_flags (B : Behavior) (url : String) (init0 : Option InitObj)
    (origM : String) (e : JsThrown) (rv : Option RequestData) (pv : Option PromiseRef)
    (k : Nat) (tr : List (RequestData × TransportOutcome)) (d : Decorated)
    (hpv : pv ≠ some PromiseRef.p2)
    (h : (innerCatch B url init0 origM e rv pv k tr).result = .ok d) :
    d.argsUrl = url ∧ d.attrs = objDefPropAttrs ∧ d.presp ≠ some PromiseRef.p2 := by
  unfold innerCatch at h
  by_cases hchb : chbStr (strOfThrown e) = true
  · rw [if_pos hchb] at h
    dsimp only at h
    cases hc1 : construct B 1 url (mutMethod init0 "POST") with
    | error e2 =>
      rw [hc1] at h
      obtain ⟨h1, h2, h3⟩ := outerCatch_flags _ _ _ _ _ _ _ h
      exact ⟨h1, h2, h3 ▸ hpv⟩
    | ok r2base =>
      rw [hc1] at h
      dsimp only at h
      cases ht : B.transport k (setHeader r2base "method" origM) with
      | reject e2 =>
        rw [ht] at h
        obtain ⟨h1, h2, h3⟩ := outerCatch_flags _ _ _ _ _ _ _ h
        exact ⟨h1, h2, h3 ▸ hpv⟩
      | resolve resp2 =>
        rw [ht] at h
        dsimp only at h
        by_cases h405 : resp2.status = 405
        · rw [if_pos h405] at h
          cases hc2 : construct B 2 url (mutDeleteBody (mutMethod (mutMethod init0 "POST") origM)) with
          | error e3 =>
            rw [hc2] at h
            obtain ⟨h1, h2, h3⟩ := outerCatch_flags _ _ _ _ _ _ _ h
            exact ⟨h1, h2, h3 ▸ hpv⟩
          | ok r3base =>
            rw [hc2] at h
            dsimp only at h
            cases ht3 : B.transport (k + 1)
                (stashBody r3base ((mutMethod (mutMethod init0 "POST") origM).bind InitObj.body)) with
            | reject e3 =>
              rw [ht3] at h
              obtain ⟨h1, h2, h3⟩ := outerCatch_flags _ _ _ _ _ _ _ h
              rw [h3]
              exact ⟨h1, h2, by intro hx; cases hx⟩
            | resolve resp3 =>
              rw [ht3] at h
              dsimp only at h
              cases h
              exact ⟨rfl, rfl, by intro hx; cases hx⟩
        · rw [if_neg h405] at h
          dsimp only at h
          cases h
          exact ⟨rfl, rfl, hpv⟩
  · rw [if_neg hchb] at h
    obtain ⟨h1, h2, h3⟩ := outerCatch_flags _ _ _ _ _ _ _ h
    exact ⟨h1, h2, h3 ▸ hpv⟩

/-- C7 (amended): every terminal response, real or synthetic, carries the
three provenance decorations, recording the call's original target; the
decorations are non-enumerable but writable and configurable (the
`objDefProp` descriptor), not write-once; and `&presponse` is never the
attempt-2 promise — attempt 2 does not record its in-flight promise, so a
response won at attempt 2 carries attempt 1's promise (or nothing, when
the first construction threw before any transport call). -/
theorem decorations_flags (B : Behavior) (url : String) (init : Option InitObj)
    (d : Decorated) (h : (runFetch B url init).result = .ok d) :
    d.argsUrl = url ∧ d.attrs = objDefPropAttrs ∧ d.presp ≠ some PromiseRef.p2 := by
  unfold runFetch at h
  dsimp only at h
  cases hc : construct B 0 url init with
  | error e =>
    rw [hc] at h
    exact innerCatch_flags B url init _ e none none 0 [] d (by intro hx; cases hx) h
  | ok r1 =>
    rw [hc] at h
    dsimp only at h
    cases ht : B.transport 0 r1 with
    | resolve resp =>
      rw [ht] at h
      cases h
      exact ⟨rfl, rfl, by intro hx; cases hx⟩
    | reject e =>
      rw [ht] at h
      exact innerCatch_flags B url init _ e (some r1) (some .p1) 1 _ d (by intro hx; cases hx) h

/-- C7 witness: the amended theorem at a plain successful call. -/
theorem decorations_flags_witness :
    (mkDecorated (emptyResp 200) "u" none (some (mkReq "u" none)) (some .p1)).argsUrl = "u" ∧
    (mkDecorated (emptyResp 200) "u" none (some (mkReq "u" none)) (some .p1)).attrs = objDefPropAttrs ∧
    (mkDecorated (emptyResp 200) "u" none (some (mkReq "u" none)) (some .p1)).presp ≠ some PromiseRef.p2 :=
  decorations_flags (okB 200) "u" none _ (by decide)

/-! ## Claim C3 -/

lemma instSem_snd (fuel : Nat) (m : MethodName) (s : BodyState) :
    (instSem fuel m s).2 = s ∨
    (instSem fuel m s).2 = { s with nextStreamId := s.nextStreamId + 1 } := by
  cases m with
  | mArrayBuffer => exact Or.inl rfl
  | mText => exact Or.inl rfl
  | mBytes => exact Or.inl rfl
  | mBlob => exact Or.inl rfl
  | mJson =>
    cases htx : textRec fuel (some (s.cache.getD [])) with
    | error e => exact Or.inl (by simp [instSem, htx])
    | ok t => exact Or.inl (by simp [instSem, htx])
  | mFormData =>
    cases htx : textRec fuel (some (s.cache.getD [])) with
    | error e => exact Or.inl (by simp [instSem, htx])
    | ok t => exact Or.inl (by simp [instSem, htx])
  | mStream => exact Or.inr rfl

lemma readBody_snd (s : BodyState) : (readBodyProp s).2 = s := by
  unfold readBodyProp
  cases s.cache <;> cases s.bodyProp <;> rfl

lemma callMethod_state (fuel : Nat) (m : MethodName) (s : BodyState) (payload : List Nat)
    (hinv : cacheInv payload s) :
    cacheInv payload (callMethod fuel m s).2 ∧ (callMethod fuel m s).2.cache = some payload := by
  obtain ⟨hp, hnone, hsome⟩ := hinv
  cases hc : s.cache with
  | some b =>
    obtain ⟨hbp, hr⟩ := hsome b hc
    have hstep : (callMethod fuel m s).2 = (instSem fuel m s).2 := by
      unfold callMethod
      rw [hc]
    rcases instSem_snd fuel m s with h | h <;>
      rw [hstep, h] <;>
      exact ⟨⟨hp, fun hx => absurd (hx ▸ hc) (by simp), fun b2 hb2 => by
        rw [hc] at hb2; cases hb2; exact ⟨hbp, hr⟩⟩, by rw [hc, hbp]⟩
  | none =>
    obtain ⟨hr0, hcons⟩ := hnone hc
    have hstep : (callMethod fuel m s).2 =
        { rawPayload := s.rawPayload, consumed := true, cache := some s.rawPayload,
          bodyProp := some s.nextStreamId, nextStreamId := s.nextStreamId + 1,
          rawReads := s.rawReads + 1 } := by
      unfold callMethod
      rw [hc]
      dsimp only
      unfold nativeArrayBuffer
      rw [hcons]
      rfl
    rw [hstep]
    refine ⟨⟨hp, ?_, ?_⟩, by rw [hp]⟩
    · intro hx
      exact absurd hx (by simp)
    · intro b2 hb2
      have hb2' : s.rawPayload = b2 := by simpa using hb2
      refine ⟨hb2' ▸ hp, ?_⟩
      rw [hr0]

lemma runOps_state (fuel : Nat) (payload : List Nat) :
    ∀ (ops : List BodyOp) (s : BodyState), cacheInv payload s →
      cacheInv payload (runOps fuel ops s).2 ∧
      (s.cache = some payload → (runOps fuel ops s).2.cache = some payload) ∧
      ((∃ m, BodyOp.call m ∈ ops) → (runOps fuel ops s).2.cache = some payload) := by
  intro ops
  induction ops with
  | nil =>
    intro s hinv
    exact ⟨hinv, fun h => h, fun ⟨m, hm⟩ => absurd hm (List.not_mem_nil _)⟩
  | cons op rest ih =>
    intro s hinv
    cases op with
    | call m =>
      obtain ⟨hinv1, hcache1⟩ := callMethod_state fuel m s payload hinv
      obtain ⟨hinvR, hkeepR, _⟩ := ih (callMethod fuel m s).2 hinv1
      have hrw : (runOps fuel (BodyOp.call m :: rest) s).2 =
          (runOps fuel rest (callMethod fuel m s).2).2 := rfl
      rw [hrw]
      exact ⟨hinvR, fun _ => hkeepR hcache1, fun _ => hkeepR hcache1⟩
    | readBody =>
      have hrw : (runOps fuel (BodyOp.readBody :: rest) s).2 =
          (runOps fuel rest (readBodyProp s).2).2 := rfl
      rw [hrw, readBody_snd]
      obtain ⟨hinvR, hkeepR, hcallR⟩ := ih s hinv
      refine ⟨hinvR, hkeepR, fun ⟨m, hm⟩ => hcallR ⟨m, ?_⟩⟩
      cases hm with
      | tail _ htl => exact htl

/-- C3: over any sequence of body-method calls and `body` accesses on a
response, the native single-shot `arrayBuffer` stored under the
`$arrayBuffer` symbol is invoked at most once; once any patched body
method has been called, the `&buffer` cache holds the transport payload
(every later body-format call is answered against that cache, never by
another read of the transport stream). -/
theorem single_shot_read (fuel : Nat) (payload : List Nat) (ops : List BodyOp) :
    (runOps fuel ops (initBody payload)).2.rawReads ≤ 1 ∧
    ((∃ m, BodyOp.call m ∈ ops) →
      (runOps fuel ops (initBody payload)).2.cache = some payload) := by
  have hinv0 : cacheInv payload (initBody payload) :=
    ⟨rfl, fun _ => ⟨rfl, rfl⟩, fun b h => by cases h⟩
  obtain ⟨hinv, _, hcall⟩ := runOps_state fuel payload ops (initBody payload) hinv0
  refine ⟨?_, hcall⟩
  obtain ⟨hp, hnone, hsome⟩ := hinv
  cases hc : (runOps fuel ops (initBody payload)).2.cache with
  | none =>
    rw [(hnone hc).1]
    exact Nat.zero_le 1
  | some b =>
    rw [(hsome b hc).2]

/-- C3 witness: one `text()` call on a fresh response with payload `hi`
performs its single read and leaves the payload cached. -/
theorem single_shot_read_witness :
    (runOps 2 [BodyOp.call .mText] (initBody hiBytes)).2.rawReads ≤ 1 ∧
    (runOps 2 [BodyOp.call .mText] (initBody hiBytes)).2.cache = some hiBytes :=
  ⟨(single_shot_read 2 hiBytes [BodyOp.call .mText]).1,
   (single_shot_read 2 hiBytes [BodyOp.call .mText]).2 ⟨.mText, by decide⟩⟩

/-! ## Claim C4 -/

/-- C4 fails on the code: on a response with payload `hi`, the first
`text()` call rejects (the wrapper's `this[method]()` TypeError), the
second returns the empty string — not the payload's text, because the
installed `text` is a self-recursive named function expression whose
stack-overflow fallback runs with `this` bound to the global object — and
the following `bytes()` call throws a RangeError outright instead of
returning bytes that decode to the string. -/
theorem C4_bug :
    (runOps 2 [.call .mText, .call .mText, .call .mBytes] (initBody hiBytes)).1 =
      [⟨.promise, .error .typeErrNotFn⟩,
       ⟨.plain, .ok (.strV "")⟩,
       ⟨.plain, .error .stackOverflow⟩] := by
  decide

/-! ## Claim C8 -/

/-- C8, as stated, is false: the `body` property is installed once, at
materialization, as one fixed stream object, so two accesses of `body`
yield the same stream, not a fresh view per access. -/
theorem C8_counterexample :
    ¬ freshViewEachAccess (runOps 2 [.call .mText, .readBody, .readBody] (initBody hiBytes)).1 := by
  intro h
  exact h 1 2 1 1 hiBytes hiBytes (by decide) (by decide) (by decide) rfl

/-- C8 (amended): after materialization, each `stream()` call constructs a
fresh readable view over the cached payload (the freshness counter is
consumed and advanced, so consecutive calls yield distinct views, each
over the cached bytes), whereas the `body` property is the single view
created at materialization: every access yields that same view, also over
the cached bytes, and leaves the state unchanged. -/
theorem stream_fresh_body_fixed (fuel : Nat) (s : BodyState) (buf : List Nat) (bid : Nat)
    (hc : s.cache = some buf) (hb : s.bodyProp = some bid) :
    (instSem fuel .mStream s).1 = .ok (.streamV s.nextStreamId buf) ∧
    (instSem fuel .mStream s).2.nextStreamId = s.nextStreamId + 1 ∧
    (readBodyProp s).1 = .ok (.streamV bid buf) ∧
    (readBodyProp s).2 = s := by
  refine ⟨?_, rfl, ?_, readBody_snd s⟩
  · simp [instSem, hc]
  · simp [readBodyProp, hc, hb]

/-- The body state of a response with payload `hi` after its first
(materializing) body-method call. -/
def matState : BodyState := (runOps 2 [BodyOp.call .mText] (initBody hiBytes)).2

/-- C8 witness: the amended theorem at the materialized `hi` response. -/
theorem stream_fresh_body_fixed_witness :
    (instSem 2 .mStream matState).1 = .ok (.streamV matState.nextStreamId hiBytes) ∧
    (instSem 2 .mStream matState).2.nextStreamId = matState.nextStreamId + 1 ∧
    (readBodyProp matState).1 = .ok (.streamV 1 hiBytes) ∧
    (readBodyProp matState).2 = matState :=
  stream_fresh_body_fixed 2 matState hiBytes 1 (by decide) (by decide)

/-! ## Claim C9 -/

/-- C9 fails on the code: with the sample multipart payload, `formData()`
yields the empty collection, because the text view it parses is the empty
string (the broken self-recursive `text`), not the payload's text — even
though the extraction algorithm itself, applied to the sample text, does
yield the ordered entries `(a, 1), (b, 2)` the claim expects, and an input
with no boundary marker yields an empty collection without raising. -/
theorem C9_bug :
    (runOps 2 [.call .mFormData, .call .mFormData] (initBody sampleBytes)).1 =
      [⟨.promise, .error .typeErrNotFn⟩, ⟨.plain, .ok (.formV [])⟩] ∧
    extractForm sampleForm = [("a", "1"), ("b", "2")] ∧
    extractForm "no boundary marker" = [] := by
  decide

/-! ## Claim C10 -/

lemma instSem_cache_eq (fuel : Nat) (m : MethodName) (s : BodyState) :
    (instSem fuel m s).2.cache = s.cache := by
  rcases instSem_snd fuel m s with h | h <;> rw [h]

lemma runCalls_plain (fuel : Nat) :
    ∀ (ms : List MethodName) (s : BodyState), s.cache.isSome →
      (runOps fuel (ms.map BodyOp.call) s).1.map CallOutcome.kind =
        ms.map (fun _ => CallKind.plain) := by
  intro ms
  induction ms with
  | nil => intro s _; rfl
  | cons m rest ih =>
    intro s h
    obtain ⟨b, hb⟩ := Option.isSome_iff_exists.mp h
    have hcall : callMethod fuel m s = (⟨.plain, (instSem fuel m s).1⟩, (instSem fuel m s).2) := by
      unfold callMethod
      rw [hb]
    have hrw : (runOps fuel ((m :: rest).map BodyOp.call) s).1 =
        (callMethod fuel m s).1 :: (runOps fuel (rest.map BodyOp.call) (callMethod fuel m s).2).1 := rfl
    rw [hrw, hcall]
    dsimp only [List.map]
    congr 1
    exact ih _ (by rw [instSem_cache_eq, hb]; rfl)

/-- C10: on each response, only the first patched body-method call runs
through the async prototype wrapper and hence settles as a promise; every
later call runs the installed instance method and completes synchronously
(a plain return or a synchronous throw, never a promise) — and in
particular a `json()` call after materialization fails synchronously with
the JSON parse error rather than as a rejected promise. -/
theorem first_call_async_rest_sync (fuel : Nat) (payload : List Nat)
    (m : MethodName) (ms : List MethodName) :
    ((runOps fuel ((m :: ms).map BodyOp.call) (initBody payload)).1.map CallOutcome.kind =
      CallKind.promise :: ms.map (fun _ => CallKind.plain)) ∧
    ((runOps 2 [.call .mText, .call .mJson] (initBody payload)).1.get? 1 =
      some ⟨.plain, .error .jsonSyntaxErr⟩) := by
  constructor
  · have hcall : callMethod fuel m (initBody payload) =
        (⟨.promise, .error .typeErrNotFn⟩,
         { rawPayload := payload, consumed := true, cache := some payload,
           bodyProp := some 1, nextStreamId := 2, rawReads := 1 }) := rfl
    have hrw : (runOps fuel ((m :: ms).map BodyOp.call) (initBody payload)).1 =
        (callMethod fuel m (initBody payload)).1 ::
          (runOps fuel (ms.map BodyOp.call) (callMethod fuel m (initBody payload)).2).1 := rfl
    rw [hrw, hcall]
    dsimp only [List.map]
    congr 1
    exact runCalls_plain fuel ms _ rfl
  · rfl

end SoftLanding
